import Mathlib

/-!
Verification development for ofxImageSequence (src/src/ofxImageSequence.cpp).

The state of one `ofxImageSequence` object is embedded as the structure
`ImageSeq`; the operations of the class are embedded as pure functions on it.
Pixel buffers are abstracted to their dimensions (`Pix`), with
`ofPixels::isAllocated` modelled by `Option`.  `float` arithmetic of the
addressing functions is modelled exactly on the rationals.  The external
collaborators (image decoder, directory lister) are an explicit environment
`Env`.  Two ghost counters instrument the state: `uploads` counts
`texture.loadData` calls and `completions` counts `completeLoading` calls.
-/

/-- A decoded image, abstracted to the dimensions of its pixel buffer.
A sequence slot of type `Option Pix` is `none` exactly when the
`ofPixels` of that slot is unallocated. -/
structure Pix where
  w : Nat
  h : Nat
deriving DecidableEq

/-- The external collaborators of the class (spec section 6):
`img path` is the image decoder (`ofLoadImage`), `none` on a failed decode;
`listDir ext folder` is the filtered, ordered directory listing
(`ofDirectory::listDir` with `allowExt`); `fsExists` is the folder
existence check (`ofFile::exists`). -/
structure Env where
  img : String → Option Pix
  listDir : String → String → List String
  fsExists : String → Bool

/-- The member state of one `ofxImageSequence` object.  `width`/`height` are
`float` members in the source holding integral pixel dimensions, modelled as
`Nat`.  `uploads` and `completions` are ghost instrumentation counters (no
source counterpart): the number of `texture.loadData` calls and of
`completeLoading` calls. -/
structure ImageSeq where
  loaded : Bool
  loading : Bool
  useThread : Bool
  cancelLoading : Bool
  frameRate : ℚ
  lastFrameLoaded : ℤ
  currentFrame : ℤ
  maxFrames : ℤ
  extension : String
  folderToLoad : String
  filenames : List String
  sequence : List (Option Pix)
  width : Nat
  height : Nat
  texture : Option Pix
  uploads : Nat
  completions : Nat
deriving DecidableEq

/-- The constructor `ofxImageSequence::ofxImageSequence` (lines 46-56).
`width`/`height`/`extension`/`folderToLoad`/`texture` are left
default-initialized in the source; the ghost counters start at 0. -/
def init : ImageSeq :=
  { loaded := false, loading := false, useThread := false, cancelLoading := false,
    frameRate := 30, lastFrameLoaded := -1, currentFrame := 0, maxFrames := 0,
    extension := "", folderToLoad := "", filenames := [], sequence := [],
    width := 0, height := 0, texture := none, uploads := 0, completions := 0 }

/-- `getTotalFrames` (line 432): `sequence.size()` as a C `int`. -/
def getTotalFrames (s : ImageSeq) : ℤ :=
  (s.sequence.length : ℤ)

/-- `loadFrame(int imageIndex)` (lines 276-300): no-op when the index equals
`lastFrameLoaded`; error return when out of bounds; otherwise decode the slot
if unallocated, and if (now) allocated upload it to the texture and record
`lastFrameLoaded`. -/
def loadFrame (env : Env) (s : ImageSeq) (imageIndex : ℤ) : ImageSeq :=
  if s.lastFrameLoaded = imageIndex then s
  else if imageIndex < 0 ∨ (s.sequence.length : ℤ) ≤ imageIndex then s
  else
    let i := imageIndex.toNat
    let s1 := if (s.sequence.getD i none).isSome then s
      else { s with sequence := s.sequence.set i (env.img (s.filenames.getD i "")) }
    if (s1.sequence.getD i none).isSome then
      { s1 with texture := s1.sequence.getD i none,
                uploads := s1.uploads + 1,
                lastFrameLoaded := imageIndex }
    else s1

/-- `unloadSequence` (lines 317-329): clears both vectors, resets `loaded`,
`width` and `height`.  (`waitForThread` is the teardown synchronization; the
sequential model runs operations between settled thread states.) -/
def unloadSequence (s : ImageSeq) : ImageSeq :=
  { s with sequence := [], filenames := [], loaded := false, width := 0, height := 0 }

/-- `setFrame(int index)` (lines 387-403): error return when not loaded or on
a negative index; otherwise `index %= getTotalFrames()` then `loadFrame` and
record `currentFrame`.  Since the index is nonnegative here, the C `%` agrees
with `Int.emod` whenever `getTotalFrames > 0`; a zero total is division by
zero in C (shown unreachable: `loaded` implies a non-empty sequence). -/
def setFrame (env : Env) (s : ImageSeq) (index : ℤ) : ImageSeq :=
  if s.loaded = false then s
  else if index < 0 then s
  else
    let index2 := index % getTotalFrames s
    let s1 := loadFrame env s index2
    { s1 with currentFrame := index2 }

/-- The C cast `(int)` applied to a `float` value: truncation toward zero. -/
def cTrunc (q : ℚ) : ℤ :=
  if q < 0 then -⌊-q⌋ else ⌊q⌋

/-- The wrap step of `getFrameIndexAtPercent` (line 338):
`if (percent < 0.0 || percent > 1.0) percent -= floor(percent);`. -/
def wrapPercent (percent : ℚ) : ℚ :=
  if percent < 0 ∨ 1 < percent then percent - ⌊percent⌋ else percent

/-- `getFrameIndexAtPercent(float percent)` (lines 336-341), for a sequence of
`n` entries: wrap, then `MIN((int)(percent*sequence.size()), sequence.size()-1)`.
`sequence.size()-1` is written on `ℤ`; it matches the source's `size_t`
arithmetic for every non-empty sequence (the only case reached with
`loaded = true`, under which the function is used). -/
def getFrameIndexAtPercent (n : Nat) (percent : ℚ) : ℤ :=
  min (cTrunc (wrapPercent percent * (n : ℚ))) ((n : ℤ) - 1)

/-- `FLT_EPSILON`, the guard constant of `ofMap`. -/
def epsFLT : ℚ :=
  1 / 2 ^ 23

/-- Modelled from the spec: the external `ofMap` collaborator used by
`getPercentAtFrameIndex` — the inverse linear map from the input range onto the
output range, clamped (spec section 4.4), returning `outMin` when the input
range is degenerate (within `FLT_EPSILON`).  Branches follow the
openFrameworks implementation of `ofMap(value, inMin, inMax, outMin, outMax,
clamp)`, which is not part of this repository. -/
def ofMap (value inMin inMax outMin outMax : ℚ) (doClamp : Bool) : ℚ :=
  if |inMin - inMax| < epsFLT then outMin
  else
    let outVal := (value - inMin) / (inMax - inMin) * (outMax - outMin) + outMin
    if doClamp then
      if outMax < outMin then
        if outVal < outMax then outMax
        else if outMin < outVal then outMin
        else outVal
      else
        if outMax < outVal then outMax
        else if outVal < outMin then outMin
        else outVal
    else outVal

/-- `getPercentAtFrameIndex(int index)` (lines 302-305), for a sequence of `n`
entries: `ofMap(index, 0, sequence.size()-1, 0, 1.0, true)`. -/
def getPercentAtFrameIndex (n : Nat) (index : ℤ) : ℚ :=
  ofMap (index : ℚ) 0 ((n : ℚ) - 1) 0 1 true

/-- The `sprintf` of the numeric-pattern load (lines 86-93): `%0Nd` when
`numDigits ≠ 0` (zero-pad to `numDigits`), else `%d`. -/
def formatInt (numDigits : ℤ) (i : ℤ) : String :=
  let digits := toString i.natAbs
  let sign := if i < 0 then "-" else ""
  if numDigits = 0 then sign ++ digits
  else sign ++ String.mk (List.replicate (numDigits.toNat - (sign.length + digits.length)) '0') ++ digits

/-- `loadSequence(prefix, filetype, startDigit, endDigit, numDigits)`
(lines 74-106): unload; fail when `endDigit - startDigit + 1 <= 0`; else push
one formatted filename and one empty slot per index, set `loaded`, reset
`lastFrameLoaded`, `loadFrame(0)`, and take `width`/`height` from slot 0
(`ofPixels::getWidth()` of an unallocated buffer is 0). -/
def loadSequenceNumeric (env : Env) (pfx filetype : String)
    (startDigit endDigit numDigits : ℤ) (s : ImageSeq) : ImageSeq × Bool :=
  let s0 := unloadSequence s
  let numFiles := endDigit - startDigit + 1
  if numFiles ≤ 0 then (s0, false)
  else
    let names := (List.range numFiles.toNat).map
      (fun k => pfx ++ formatInt numDigits (startDigit + (k : ℤ)) ++ "." ++ filetype)
    let s1 := { s0 with filenames := s0.filenames ++ names,
                        sequence := s0.sequence ++ List.replicate numFiles.toNat none,
                        loaded := true, lastFrameLoaded := -1 }
    let s2 := loadFrame env s1 0
    ({ s2 with width := (s2.sequence.getD 0 none).elim 0 Pix.w,
               height := (s2.sequence.getD 0 none).elim 0 Pix.h }, true)

/-- The frame-count cap of `preloadAllFilenames` (lines 157-163):
`MIN(dir.listDir(folderToLoad), maxFrames)` when `maxFrames > 0`. -/
def numFilesResolved (env : Env) (s : ImageSeq) : Nat :=
  let files := env.listDir s.extension s.folderToLoad
  if 0 < s.maxFrames then min files.length s.maxFrames.toNat else files.length

/-- `preloadAllFilenames` (lines 145-180): fail when the folder is missing or
the (possibly capped) listing is empty; else push one path and one empty slot
per listed file. -/
def preloadAllFilenames (env : Env) (s : ImageSeq) : ImageSeq × Bool :=
  if env.fsExists s.folderToLoad = false then (s, false)
  else
    let files := env.listDir s.extension s.folderToLoad
    let numFiles := numFilesResolved env s
    if numFiles = 0 then (s, false)
    else
      ({ s with filenames := s.filenames ++ files.take numFiles,
                sequence := s.sequence ++ List.replicate numFiles none }, true)

/-- `completeLoading` (lines 128-143): error return on an empty sequence; else
set `loaded`, reset `lastFrameLoaded`, `loadFrame(0)`, and take
`width`/`height` from slot 0.  The ghost counter `completions` counts every
call. -/
def completeLoading (env : Env) (s : ImageSeq) : ImageSeq :=
  let s0 := { s with completions := s.completions + 1 }
  if s0.sequence.length = 0 then s0
  else
    let s1 := { s0 with loaded := true, lastFrameLoaded := -1 }
    let s2 := loadFrame env s1 0
    { s2 with width := (s2.sequence.getD 0 none).elim 0 Pix.w,
              height := (s2.sequence.getD 0 none).elim 0 Pix.h }

/-- The decode loop of `preloadAllFrames` (lines 261-273), iterating slot
index `i` with `fuel` iterations left.  `cancelAt = some (i+1)` schedules the
cooperative cancel flag (`cancelLoad`, lines 240-245, guarded by `useThread`)
to become visible just before the check of iteration `i`; the check itself
(`if(useThread){ if(cancelLoading) return; }`) only fires on the threaded
path.  Each iteration decodes `filenames[i]` into slot `i` unconditionally
(a failed decode leaves the slot as the decoder left it: `none`). -/
def preloadGo (env : Env) (cancelAt : Option Nat) : Nat → Nat → ImageSeq → ImageSeq
  | 0, _, s => s
  | fuel + 1, i, s =>
    let s1 := if s.useThread = true ∧ cancelAt = some (i + 1)
      then { s with cancelLoading := true } else s
    if s1.useThread = true ∧ s1.cancelLoading = true then s1
    else
      preloadGo env cancelAt fuel (i + 1)
        { s1 with sequence := s1.sequence.set i (env.img (s1.filenames.getD i "")) }

/-- `preloadAllFrames` (lines 254-274): error return on an empty sequence,
else the decode loop over every slot. -/
def preloadAllFrames (env : Env) (cancelAt : Option Nat) (s : ImageSeq) : ImageSeq :=
  if s.sequence.length = 0 then s
  else preloadGo env cancelAt s.sequence.length 0 s

/-- `threadedFunction` (lines 182-204): set `loading`, clear `cancelLoading`,
resolve filenames (on failure just clear `loading`); honor a cancel request
arriving before the post-resolution check (`cancelAt = some 0`); else run the
decode loop (with its own cancel points) and clear `loading`.  The update
listener registered here is modelled by the `updateThreadedLoad` call that the
scenario performs after the thread body finishes. -/
def threadedFunction (env : Env) (cancelAt : Option Nat) (s : ImageSeq) : ImageSeq :=
  let s0 := { s with loading := true, cancelLoading := false }
  let r := preloadAllFilenames env s0
  if r.2 = false then { r.1 with loading := false }
  else
    let s2 := if r.1.useThread = true ∧ cancelAt = some 0
      then { r.1 with cancelLoading := true } else r.1
    if s2.cancelLoading = true then { s2 with loading := false, cancelLoading := false }
    else
      let s3 := preloadAllFrames env cancelAt s2
      { s3 with loading := false }

/-- `updateThreadedLoad` (lines 206-216): a no-op while `loading`; once the
thread is done it removes itself and calls `completeLoading` exactly when the
sequence is non-empty. -/
def updateThreadedLoad (env : Env) (s : ImageSeq) : ImageSeq :=
  if s.loading = true then s
  else if 0 < s.sequence.length then completeLoading env s
  else s

/-- `loadSequence(string folder)` (lines 108-126): unload, record the folder;
on the threaded path start the loader (modelled as: the thread body runs to
completion with the cancel request becoming visible at checkpoint `cancelAt`,
then one update event is delivered) and return true immediately; on the
synchronous path resolve filenames and call `completeLoading` on success. -/
def loadSequenceFolder (env : Env) (cancelAt : Option Nat) (folder : String)
    (s : ImageSeq) : ImageSeq × Bool :=
  let s0 := { unloadSequence s with folderToLoad := folder }
  if s0.useThread = true then
    (updateThreadedLoad env (threadedFunction env cancelAt s0), true)
  else
    let r := preloadAllFilenames env s0
    if r.2 = true then (completeLoading env r.1, true)
    else r

/-- `setFrameAtPercent` (lines 412-415). -/
def setFrameAtPercent (env : Env) (s : ImageSeq) (percent : ℚ) : ImageSeq :=
  setFrame env s (getFrameIndexAtPercent s.sequence.length percent)

/-- `setFrameForTime` (lines 405-410): normalize the time by the total
duration at the configured frame rate, then delegate to the percent mode
(`x / 0 = 0` on `ℚ` stands in for the float division). -/
def setFrameForTime (env : Env) (s : ImageSeq) (time : ℚ) : ImageSeq :=
  let totalTime : ℚ := (s.sequence.length : ℚ) / s.frameRate
  setFrameAtPercent env s (time / totalTime)

/-- `setMaxFrames` (lines 219-225): `maxFrames = MAX(newMaxFrames, 0)`
(the after-load case only logs, the assignment happens regardless). -/
def setMaxFrames (s : ImageSeq) (n : ℤ) : ImageSeq :=
  { s with maxFrames := max n 0 }

/-- The public operations of the class, for the reachability relation.
A folder load carries the cancel schedule of its (possible) background run. -/
inductive Op where
  | loadNumeric (pfx filetype : String) (startDigit endDigit numDigits : ℤ)
  | loadFolder (folder : String) (cancelAt : Option Nat)
  | unload
  | frame (index : ℤ)
  | frameAtPercent (p : ℚ)
  | frameForTime (t : ℚ)
  | preloadAll
  | maxFramesOp (n : ℤ)
  | extensionOp (e : String)
  | threadedOp (b : Bool)
  | cancelOp
  | frameRateOp (r : ℚ)

/-- One public operation applied to the state.  `cancelOp` is `cancelLoad`
(lines 240-245); `threadedOp` is `enableThreadedLoad` (lines 232-238);
`extensionOp` is `setExtension` (lines 227-230); `frameRateOp` is
`setFrameRate` (lines 331-334). -/
def applyOp (env : Env) (op : Op) (s : ImageSeq) : ImageSeq :=
  match op with
  | .loadNumeric p f a b d => (loadSequenceNumeric env p f a b d s).1
  | .loadFolder folder ca => (loadSequenceFolder env ca folder s).1
  | .unload => unloadSequence s
  | .frame i => setFrame env s i
  | .frameAtPercent p => setFrameAtPercent env s p
  | .frameForTime t => setFrameForTime env s t
  | .preloadAll => preloadAllFrames env none s
  | .maxFramesOp n => setMaxFrames s n
  | .extensionOp e => { s with extension := e }
  | .threadedOp b => { s with useThread := b }
  | .cancelOp => if s.useThread = true ∧ s.loading = true then { s with cancelLoading := true } else s
  | .frameRateOp r => { s with frameRate := r }

/-- The states reachable from a freshly constructed object by public
operations. -/
inductive Reachable (env : Env) : ImageSeq → Prop where
  | start : Reachable env init
  | step (s : ImageSeq) (op : Op) : Reachable env s → Reachable env (applyOp env op s)

/-- A concrete environment: every file decodes to a 4x3 image, the folder
"frames" exists and lists one file. -/
def envA : Env :=
  { img := fun _ => some ⟨4, 3⟩, listDir := fun _ _ => ["a.png"], fsExists := fun _ => true }

/-- A concrete environment with a corrupt first file: "f001.png" fails to
decode, every other file decodes to a 7x5 image; the folder lists both
files of the f-sequence. -/
def envB : Env :=
  { img := fun p => if p = "f001.png" then none else some ⟨7, 5⟩,
    listDir := fun _ _ => ["f001.png", "f002.png"],
    fsExists := fun _ => true }

/-- The state after loading the 3-frame numeric sequence f001..f003 under
`envA`. -/
def sNum3 : ImageSeq :=
  (loadSequenceNumeric envA "f" "png" 1 3 3 init).1

/-- A reachable state violating the `currentIndex < entries.size()` invariant:
load 5 frames, display frame 4, then load a 2-frame sequence (the load does
not reset `currentFrame`). -/
def sStale : ImageSeq :=
  applyOp envA (.loadNumeric "g" "png" 1 2 3)
    (applyOp envA (.frame 4)
      (applyOp envA (.loadNumeric "f" "png" 1 5 3) init))

/-- The settled state of a background folder load under `envA` whose
cancellation became visible before the post-resolution check. -/
def sCancelled : ImageSeq :=
  (loadSequenceFolder envA (some 0) "frames" { init with useThread := true }).1

/-- The settled state of an uncancelled background folder load under `envB`
(slot 0 fails to decode, slot 1 decodes to 7x5). -/
def sThreadB : ImageSeq :=
  (loadSequenceFolder envB none "frames" { init with useThread := true }).1

/-- The state after loading the 2-frame numeric sequence f001..f002 under
`envB` (slot 0 corrupt). -/
def sNumB : ImageSeq :=
  (loadSequenceNumeric envB "f" "png" 1 2 3 init).1

/-- The fields of the state untouched by the decode machinery (`loadFrame`
changes only slot contents, texture, uploads and `lastFrameLoaded`; the
decode loop additionally the cancel flag), bundled for preservation lemmas. -/
def core (s : ImageSeq) : Bool × Bool × Nat × ℤ × Nat × List String × Nat × Nat × Bool × ℤ × String × String × ℚ :=
  (s.loaded, s.loading, s.completions, s.currentFrame, s.sequence.length,
   s.filenames, s.width, s.height, s.useThread, s.maxFrames, s.extension,
   s.folderToLoad, s.frameRate)

theorem loadFrame_core (env : Env) (s : ImageSeq) (i : ℤ) :
    core (loadFrame env s i) = core s := by
  simp only [loadFrame]
  split_ifs <;> simp [core]

theorem loadFrame_loaded (env : Env) (s : ImageSeq) (i : ℤ) :
    (loadFrame env s i).loaded = s.loaded := by
  have h := loadFrame_core env s i
  simp only [core, Prod.mk.injEq] at h
  exact h.1

theorem loadFrame_length (env : Env) (s : ImageSeq) (i : ℤ) :
    (loadFrame env s i).sequence.length = s.sequence.length := by
  have h := loadFrame_core env s i
  simp only [core, Prod.mk.injEq] at h
  exact h.2.2.2.2.1

theorem loadFrame_filenames (env : Env) (s : ImageSeq) (i : ℤ) :
    (loadFrame env s i).filenames = s.filenames := by
  have h := loadFrame_core env s i
  simp only [core, Prod.mk.injEq] at h
  exact h.2.2.2.2.2.1

theorem loadFrame_currentFrame (env : Env) (s : ImageSeq) (i : ℤ) :
    (loadFrame env s i).currentFrame = s.currentFrame := by
  have h := loadFrame_core env s i
  simp only [core, Prod.mk.injEq] at h
  exact h.2.2.2.1

theorem loadFrame_completions (env : Env) (s : ImageSeq) (i : ℤ) :
    (loadFrame env s i).completions = s.completions := by
  have h := loadFrame_core env s i
  simp only [core, Prod.mk.injEq] at h
  exact h.2.2.1

theorem loadFrame_loading (env : Env) (s : ImageSeq) (i : ℤ) :
    (loadFrame env s i).loading = s.loading := by
  have h := loadFrame_core env s i
  simp only [core, Prod.mk.injEq] at h
  exact h.2.1

theorem loadFrame_width (env : Env) (s : ImageSeq) (i : ℤ) :
    (loadFrame env s i).width = s.width := by
  have h := loadFrame_core env s i
  simp only [core, Prod.mk.injEq] at h
  exact h.2.2.2.2.2.2.1

theorem loadFrame_height (env : Env) (s : ImageSeq) (i : ℤ) :
    (loadFrame env s i).height = s.height := by
  have h := loadFrame_core env s i
  simp only [core, Prod.mk.injEq] at h
  exact h.2.2.2.2.2.2.2.1

theorem preloadGo_core (env : Env) (ca : Option Nat) (fuel : Nat) :
    ∀ (i : Nat) (s : ImageSeq), core (preloadGo env ca fuel i s) = core s := by
  induction fuel with
  | zero => intro i s; simp [preloadGo]
  | succ fuel ih =>
    intro i s
    simp only [preloadGo]
    split_ifs with h1 h2 <;> try rfl
    all_goals rw [ih]
    all_goals simp [core]

theorem preloadAllFrames_core (env : Env) (ca : Option Nat) (s : ImageSeq) :
    core (preloadAllFrames env ca s) = core s := by
  simp only [preloadAllFrames]
  split_ifs with h
  · rfl
  · exact preloadGo_core env ca s.sequence.length 0 s

theorem preloadAllFrames_loaded (env : Env) (ca : Option Nat) (s : ImageSeq) :
    (preloadAllFrames env ca s).loaded = s.loaded := by
  have h := preloadAllFrames_core env ca s
  simp only [core, Prod.mk.injEq] at h
  exact h.1

theorem preloadAllFrames_loading (env : Env) (ca : Option Nat) (s : ImageSeq) :
    (preloadAllFrames env ca s).loading = s.loading := by
  have h := preloadAllFrames_core env ca s
  simp only [core, Prod.mk.injEq] at h
  exact h.2.1

theorem preloadAllFrames_completions (env : Env) (ca : Option Nat) (s : ImageSeq) :
    (preloadAllFrames env ca s).completions = s.completions := by
  have h := preloadAllFrames_core env ca s
  simp only [core, Prod.mk.injEq] at h
  exact h.2.2.1

theorem preloadAllFrames_currentFrame (env : Env) (ca : Option Nat) (s : ImageSeq) :
    (preloadAllFrames env ca s).currentFrame = s.currentFrame := by
  have h := preloadAllFrames_core env ca s
  simp only [core, Prod.mk.injEq] at h
  exact h.2.2.2.1

theorem preloadAllFrames_length (env : Env) (ca : Option Nat) (s : ImageSeq) :
    (preloadAllFrames env ca s).sequence.length = s.sequence.length := by
  have h := preloadAllFrames_core env ca s
  simp only [core, Prod.mk.injEq] at h
  exact h.2.2.2.2.1

theorem preloadAllFrames_width (env : Env) (ca : Option Nat) (s : ImageSeq) :
    (preloadAllFrames env ca s).width = s.width := by
  have h := preloadAllFrames_core env ca s
  simp only [core, Prod.mk.injEq] at h
  exact h.2.2.2.2.2.2.1

theorem preloadAllFrames_height (env : Env) (ca : Option Nat) (s : ImageSeq) :
    (preloadAllFrames env ca s).height = s.height := by
  have h := preloadAllFrames_core env ca s
  simp only [core, Prod.mk.injEq] at h
  exact h.2.2.2.2.2.2.2.1

theorem completeLoading_completions (env : Env) (s : ImageSeq) :
    (completeLoading env s).completions = s.completions + 1 := by
  simp only [completeLoading]
  split_ifs with h
  · rfl
  · simp [loadFrame_completions]

theorem completeLoading_loading (env : Env) (s : ImageSeq) :
    (completeLoading env s).loading = s.loading := by
  simp only [completeLoading]
  split_ifs with h
  · rfl
  · simp [loadFrame_loading]

theorem completeLoading_length (env : Env) (s : ImageSeq) :
    (completeLoading env s).sequence.length = s.sequence.length := by
  simp only [completeLoading]
  split_ifs with h
  · rfl
  · simp [loadFrame_length]

theorem completeLoading_currentFrame (env : Env) (s : ImageSeq) :
    (completeLoading env s).currentFrame = s.currentFrame := by
  simp only [completeLoading]
  split_ifs with h
  · rfl
  · simp [loadFrame_currentFrame]

theorem completeLoading_loaded_of_pos (env : Env) (s : ImageSeq)
    (h : 0 < s.sequence.length) : (completeLoading env s).loaded = true := by
  simp only [completeLoading]
  split_ifs with h0
  · omega
  · simp [loadFrame_loaded]

theorem preloadAllFilenames_same (env : Env) (s : ImageSeq) :
    ((preloadAllFilenames env s).1.loaded = s.loaded) ∧
    ((preloadAllFilenames env s).1.loading = s.loading) ∧
    ((preloadAllFilenames env s).1.completions = s.completions) ∧
    ((preloadAllFilenames env s).1.currentFrame = s.currentFrame) ∧
    ((preloadAllFilenames env s).1.useThread = s.useThread) ∧
    ((preloadAllFilenames env s).1.cancelLoading = s.cancelLoading) := by
  simp only [preloadAllFilenames]
  split_ifs <;> simp

theorem preloadAllFilenames_true_len (env : Env) (s : ImageSeq)
    (h : (preloadAllFilenames env s).2 = true) :
    s.sequence.length < (preloadAllFilenames env s).1.sequence.length := by
  by_cases h1 : env.fsExists s.folderToLoad = false
  · exfalso
    simp [preloadAllFilenames, h1] at h
  · by_cases h2 : numFilesResolved env s = 0
    · exfalso
      simp [preloadAllFilenames, h1, h2] at h
    · simp [preloadAllFilenames, h1, h2]
      omega

theorem threadedFunction_same (env : Env) (ca : Option Nat) (s : ImageSeq) :
    ((threadedFunction env ca s).loading = false) ∧
    ((threadedFunction env ca s).loaded = s.loaded) ∧
    ((threadedFunction env ca s).completions = s.completions) ∧
    ((threadedFunction env ca s).currentFrame = s.currentFrame) := by
  have hsame := preloadAllFilenames_same env { s with loading := true, cancelLoading := false }
  have hA : (preloadAllFilenames env { s with loading := true, cancelLoading := false }).1.loaded = s.loaded := hsame.1
  have hB : (preloadAllFilenames env { s with loading := true, cancelLoading := false }).1.completions = s.completions := hsame.2.2.1
  have hC : (preloadAllFilenames env { s with loading := true, cancelLoading := false }).1.currentFrame = s.currentFrame := hsame.2.2.2.1
  simp only [threadedFunction]
  split_ifs with h1 h2 h3 <;>
    simp [preloadAllFrames_loaded, preloadAllFrames_completions,
      preloadAllFrames_currentFrame, hA, hB, hC]

theorem loadSequenceNumeric_inv (env : Env) (p f : String) (a b d : ℤ) (s : ImageSeq)
    (ih : (s.loaded = true → 0 < s.sequence.length) ∧ 0 ≤ s.currentFrame) :
    ((loadSequenceNumeric env p f a b d s).1.loaded = true →
      0 < (loadSequenceNumeric env p f a b d s).1.sequence.length) ∧
    0 ≤ (loadSequenceNumeric env p f a b d s).1.currentFrame := by
  simp only [loadSequenceNumeric]
  split_ifs with h
  · refine ⟨fun hl => ?_, ih.2⟩
    simp [unloadSequence] at hl
  · refine ⟨fun _ => ?_, ?_⟩
    · simp [loadFrame_length]
      omega
    · simp [loadFrame_currentFrame]
      exact ih.2

theorem loadSequenceFolder_inv (env : Env) (ca : Option Nat) (folder : String) (s : ImageSeq)
    (ih : (s.loaded = true → 0 < s.sequence.length) ∧ 0 ≤ s.currentFrame) :
    ((loadSequenceFolder env ca folder s).1.loaded = true →
      0 < (loadSequenceFolder env ca folder s).1.sequence.length) ∧
    0 ≤ (loadSequenceFolder env ca folder s).1.currentFrame := by
  have ht := threadedFunction_same env ca { unloadSequence s with folderToLoad := folder }
  have htL : (threadedFunction env ca { unloadSequence s with folderToLoad := folder }).loaded = false := ht.2.1
  have htC : (threadedFunction env ca { unloadSequence s with folderToLoad := folder }).currentFrame = s.currentFrame := ht.2.2.2
  have hsame := preloadAllFilenames_same env { unloadSequence s with folderToLoad := folder }
  have hsL : (preloadAllFilenames env { unloadSequence s with folderToLoad := folder }).1.loaded = false := hsame.1
  have hsC : (preloadAllFilenames env { unloadSequence s with folderToLoad := folder }).1.currentFrame = s.currentFrame := hsame.2.2.2.1
  simp only [loadSequenceFolder, updateThreadedLoad]
  split_ifs with hthr h1 h2 h3
  · refine ⟨fun hl => ?_, ?_⟩
    · rw [htL] at hl
      simp at hl
    · rw [htC]
      exact ih.2
  · refine ⟨fun _ => ?_, ?_⟩
    · rw [completeLoading_length]
      exact h2
    · rw [completeLoading_currentFrame, htC]
      exact ih.2
  · refine ⟨fun hl => ?_, ?_⟩
    · rw [htL] at hl
      simp at hl
    · rw [htC]
      exact ih.2
  · refine ⟨fun _ => ?_, ?_⟩
    · rw [completeLoading_length]
      have h0 := preloadAllFilenames_true_len env { unloadSequence s with folderToLoad := folder } h3
      simpa [unloadSequence] using h0
    · rw [completeLoading_currentFrame, hsC]
      exact ih.2
  · refine ⟨fun hl => ?_, ?_⟩
    · rw [hsL] at hl
      simp at hl
    · rw [hsC]
      exact ih.2

theorem setFrame_inv (env : Env) (s : ImageSeq) (i : ℤ)
    (h : (s.loaded = true → 0 < s.sequence.length) ∧ 0 ≤ s.currentFrame) :
    ((setFrame env s i).loaded = true → 0 < (setFrame env s i).sequence.length) ∧
    0 ≤ (setFrame env s i).currentFrame := by
  simp only [setFrame]
  split_ifs with h1 h2
  · exact h
  · exact h
  · have hl : s.loaded = true := by
      revert h1
      cases s.loaded <;> simp
    have hlen := h.1 hl
    refine ⟨fun _ => ?_, ?_⟩
    · simpa [loadFrame_length] using hlen
    · have hz : getTotalFrames s ≠ 0 := by
        simp only [getTotalFrames]
        omega
      simpa using Int.emod_nonneg i hz

/-- The inductive invariant of the public interface: a loaded sequence is
non-empty, and the current frame index is never negative. -/
theorem reachable_inv (env : Env) (s : ImageSeq) (h : Reachable env s) :
    (s.loaded = true → 0 < s.sequence.length) ∧ 0 ≤ s.currentFrame := by
  induction h with
  | start => exact ⟨fun hl => absurd hl (by decide), by decide⟩
  | step s op hr ih =>
    cases op with
    | loadNumeric p f a b d => exact loadSequenceNumeric_inv env p f a b d s ih
    | loadFolder folder ca => exact loadSequenceFolder_inv env ca folder s ih
    | unload => exact ⟨fun hl => by simp [applyOp, unloadSequence] at hl, ih.2⟩
    | frame i => exact setFrame_inv env s i ih
    | frameAtPercent p => exact setFrame_inv env s _ ih
    | frameForTime t => exact setFrame_inv env s _ ih
    | preloadAll =>
      simp only [applyOp]
      refine ⟨fun hl => ?_, ?_⟩
      · rw [preloadAllFrames_length]
        refine ih.1 ?_
        rw [← preloadAllFrames_loaded env none s]
        exact hl
      · rw [preloadAllFrames_currentFrame]
        exact ih.2
    | maxFramesOp n => exact ih
    | extensionOp e => exact ih
    | threadedOp b => exact ih
    | cancelOp =>
      simp only [applyOp]
      split_ifs <;> exact ih
    | frameRateOp r => exact ih

/-- C10: the modulo `index %= getTotalFrames()` inside `setFrame` never
executes with a zero divisor: in every reachable state, `loaded = true`
implies the sequence is non-empty, so `getTotalFrames` is positive. -/
theorem C10_mod_divisor_nonzero (env : Env) (s : ImageSeq)
    (h : Reachable env s) (hl : s.loaded = true) :
    0 < getTotalFrames s := by
  have hp := (reachable_inv env s h).1 hl
  simp only [getTotalFrames]
  exact_mod_cast hp

theorem C10_witness : 0 < getTotalFrames sNum3 :=
  C10_mod_divisor_nonzero envA sNum3
    (Reachable.step init (Op.loadNumeric "f" "png" 1 3 3) Reachable.start) (by decide)

/-- C5 counterexample: a reachable state (5-frame load, `setFrame 4`, then a
2-frame load) that is `Loaded` with a non-empty sequence but has
`currentFrame = 4 ≥ entries.size() = 2`: the claimed invariant fails because
loading does not reset `currentFrame`. -/
theorem C5_counterexample :
    Reachable envA sStale ∧ sStale.loaded = true ∧ 0 < sStale.sequence.length ∧
      ¬ sStale.currentFrame < (sStale.sequence.length : ℤ) := by
  refine ⟨?_, by decide, by decide, by decide⟩
  exact Reachable.step _ (Op.loadNumeric "g" "png" 1 2 3)
    (Reachable.step _ (Op.frame 4)
      (Reachable.step _ (Op.loadNumeric "f" "png" 1 5 3) Reachable.start))

/-- C5 (amended): in every reachable state `0 <= currentIndex`, and
immediately after any `setFrame` with a nonnegative index on a loaded
non-empty sequence `0 <= currentIndex < entries.size()`; the invariant over
all reachable loaded states fails, because loading a new (shorter) sequence
does not reset `currentIndex`. -/
theorem C5_currentIndex_invariant :
    (∀ (env : Env) (s : ImageSeq), Reachable env s → 0 ≤ s.currentFrame) ∧
    (∀ (env : Env) (s : ImageSeq) (i : ℤ), s.loaded = true → 0 < s.sequence.length → 0 ≤ i →
      0 ≤ (setFrame env s i).currentFrame ∧
        (setFrame env s i).currentFrame < ((setFrame env s i).sequence.length : ℤ)) := by
  constructor
  · intro env s h
    exact (reachable_inv env s h).2
  · intro env s i hl hn h0
    simp only [setFrame]
    split_ifs with h1 h2
    · rw [hl] at h1
      exact absurd h1 (by simp)
    · omega
    · constructor
      · have hz : getTotalFrames s ≠ 0 := by
          simp only [getTotalFrames]
          omega
        simpa using Int.emod_nonneg i hz
      · have hp : (0:ℤ) < getTotalFrames s := by
          simp only [getTotalFrames]
          exact_mod_cast hn
        have hlen := loadFrame_length env s (i % getTotalFrames s)
        show i % getTotalFrames s < ((loadFrame env s (i % getTotalFrames s)).sequence.length : ℤ)
        rw [hlen]
        exact Int.emod_lt_of_pos i hp

theorem C5_witness :
    0 ≤ sNum3.currentFrame ∧
    (0 ≤ (setFrame envA sNum3 7).currentFrame ∧
      (setFrame envA sNum3 7).currentFrame < ((setFrame envA sNum3 7).sequence.length : ℤ)) :=
  ⟨C5_currentIndex_invariant.1 envA sNum3
      (Reachable.step init (Op.loadNumeric "f" "png" 1 3 3) Reachable.start),
    C5_currentIndex_invariant.2 envA sNum3 7 (by decide) (by decide) (by decide)⟩

/-- C2: on a loaded non-empty sequence, `setFrame index` with
`index >= total` produces the same state as `setFrame (index % total)`
(the index cycles via modulo), while `setFrame index` with `index < 0`
leaves the state unchanged. -/
theorem C2_setFrame_wrap (env : Env) (s : ImageSeq) (i : ℤ)
    (hl : s.loaded = true) (hn : 0 < s.sequence.length) :
    (getTotalFrames s ≤ i → setFrame env s i = setFrame env s (i % getTotalFrames s)) ∧
    (i < 0 → setFrame env s i = s) := by
  have hp : (0:ℤ) < getTotalFrames s := by
    simp only [getTotalFrames]
    exact_mod_cast hn
  constructor
  · intro hge
    have h0 : 0 ≤ i := le_trans hp.le hge
    have hj0 : 0 ≤ i % getTotalFrames s := Int.emod_nonneg i (by omega)
    have hmm : i % getTotalFrames s % getTotalFrames s = i % getTotalFrames s :=
      Int.emod_emod_of_dvd i dvd_rfl
    simp only [setFrame]
    split_ifs with a1 a2 a3 <;> first | rfl | omega | rw [hmm]
  · intro hneg
    simp only [setFrame]
    split_ifs <;> first | rfl | omega

theorem C2_witness :
    setFrame envA sNum3 5 = setFrame envA sNum3 (5 % getTotalFrames sNum3) ∧
    setFrame envA sNum3 (-1) = sNum3 :=
  ⟨(C2_setFrame_wrap envA sNum3 5 (by decide) (by decide)).1 (by decide),
    (C2_setFrame_wrap envA sNum3 (-1) (by decide) (by decide)).2 (by decide)⟩

theorem loadFrame_decode (env : Env) (s : ImageSeq) (i : ℤ) (px : Pix)
    (h0 : 0 ≤ i) (hi : i < (s.sequence.length : ℤ))
    (hlast : s.lastFrameLoaded ≠ i)
    (hslot : s.sequence.getD i.toNat none = none)
    (himg : env.img (s.filenames.getD i.toNat "") = some px) :
    loadFrame env s i =
      { s with sequence := s.sequence.set i.toNat (some px),
               texture := some px,
               uploads := s.uploads + 1,
               lastFrameLoaded := i } := by
  have hiN : i.toNat < s.sequence.length := by omega
  simp only [loadFrame]
  rw [if_neg hlast, if_neg (by omega : ¬(i < 0 ∨ (s.sequence.length : ℤ) ≤ i))]
  rw [hslot, himg]
  simp [List.getD_eq_getElem?_getD, List.getElem?_set_eq_of_lt _ hiN]

/-- C8: requesting the same in-range frame index twice in succession on a
loaded sequence performs exactly one texture upload: the first call uploads
(incrementing the ghost upload counter by one), the second call hits the
`lastFrameLoaded` guard and leaves the state entirely unchanged. -/
theorem C8_single_upload (env : Env) (s : ImageSeq) (i : ℤ) (px : Pix)
    (hl : s.loaded = true) (h0 : 0 ≤ i) (hi : i < (s.sequence.length : ℤ))
    (hlast : s.lastFrameLoaded ≠ i)
    (hslot : s.sequence.getD i.toNat none = none)
    (himg : env.img (s.filenames.getD i.toNat "") = some px) :
    (setFrame env s i).uploads = s.uploads + 1 ∧
    setFrame env (setFrame env s i) i = setFrame env s i := by
  have hineg : ¬ i < 0 := by omega
  have hmod : i % getTotalFrames s = i := Int.emod_eq_of_lt h0 hi
  have hLF := loadFrame_decode env s i px h0 hi hlast hslot himg
  have h1 : setFrame env s i =
      { s with sequence := s.sequence.set i.toNat (some px),
               texture := some px, uploads := s.uploads + 1,
               lastFrameLoaded := i, currentFrame := i } := by
    simp only [setFrame, hl]
    rw [if_neg (by simp : ¬(true = false)), if_neg hineg, hmod, hLF]
    simp [hl]
  have hmod2 : i % ((s.sequence.length : ℤ)) = i := hmod
  constructor
  · rw [h1]
  · rw [h1]
    simp [setFrame, hl, loadFrame, getTotalFrames, List.length_set, hmod2, hineg]

theorem C8_witness :
    (setFrame envA sNum3 1).uploads = sNum3.uploads + 1 ∧
    setFrame envA (setFrame envA sNum3 1) 1 = setFrame envA sNum3 1 :=
  C8_single_upload envA sNum3 1 ⟨4, 3⟩ (by decide) (by decide) (by decide)
    (by decide) (by decide) (by decide)

theorem preloadAllFilenames_success (env : Env) (s : ImageSeq)
    (hex : env.fsExists s.folderToLoad = true)
    (hn : 0 < numFilesResolved env s) :
    (preloadAllFilenames env s).2 = true := by
  have hne : numFilesResolved env s ≠ 0 := by omega
  simp [preloadAllFilenames, hex, hne]

theorem threadedFunction_len_pos (env : Env) (ca : Option Nat) (s : ImageSeq)
    (hex : env.fsExists s.folderToLoad = true)
    (hn : 0 < numFilesResolved env s) :
    0 < (threadedFunction env ca s).sequence.length := by
  have hex0 : env.fsExists ({ s with loading := true, cancelLoading := false } : ImageSeq).folderToLoad = true := hex
  have hn0 : 0 < numFilesResolved env { s with loading := true, cancelLoading := false } := hn
  have hs := preloadAllFilenames_success env { s with loading := true, cancelLoading := false } hex0 hn0
  have hlen0 := preloadAllFilenames_true_len env { s with loading := true, cancelLoading := false } hs
  have hlen : s.sequence.length <
      (preloadAllFilenames env { s with loading := true, cancelLoading := false }).1.sequence.length := hlen0
  simp only [threadedFunction]
  rw [hs]
  rw [if_neg (by simp)]
  split_ifs with h1 h2 <;> simp [preloadAllFrames_length] <;> omega

/-- C1 counterexample: a background load under `envA` whose cancellation is
honored at the post-resolution checkpoint still ends, after the next update
tick, with `isLoaded() == true` and with `completeLoading` called once —
against the claim that a cancelled load ends unloaded with the completion
step never called. -/
theorem C1_counterexample :
    sCancelled.loaded = true ∧ sCancelled.completions = 1 := by
  constructor <;> decide

/-- C6: the numeric-pattern load with prefix "f", extension "png", start 1,
end 3, digits 3 resolves exactly to f001.png, f002.png, f003.png in order
(unpadded names when digits = 0), and fails returning false whenever
`endIndex < startIndex`. -/
theorem C6_numeric_pattern :
    (∀ env : Env, (loadSequenceNumeric env "f" "png" 1 3 3 init).1.filenames =
      ["f001.png", "f002.png", "f003.png"]) ∧
    (∀ env : Env, (loadSequenceNumeric env "f" "png" 1 3 0 init).1.filenames =
      ["f1.png", "f2.png", "f3.png"]) ∧
    (∀ (env : Env) (pfx filetype : String) (a b d : ℤ) (s : ImageSeq), b < a →
      (loadSequenceNumeric env pfx filetype a b d s).2 = false) := by
  refine ⟨fun env => ?_, fun env => ?_, fun env pfx ft a b d s hba => ?_⟩
  · simp only [loadSequenceNumeric]
    rw [if_neg (by omega : ¬((3:ℤ) - 1 + 1 ≤ 0))]
    simp [loadFrame_filenames]
    decide
  · simp only [loadSequenceNumeric]
    rw [if_neg (by omega : ¬((3:ℤ) - 1 + 1 ≤ 0))]
    simp [loadFrame_filenames]
    decide
  · simp only [loadSequenceNumeric]
    rw [if_pos (by omega : (b - a + 1 : ℤ) ≤ 0)]

theorem C6_witness :
    (loadSequenceNumeric envA "f" "png" 1 3 3 init).1.filenames =
      ["f001.png", "f002.png", "f003.png"] ∧
    (loadSequenceNumeric envA "x" "png" 3 1 0 init).2 = false :=
  ⟨C6_numeric_pattern.1 envA, C6_numeric_pattern.2.2 envA "x" "png" 3 1 0 init (by decide)⟩

theorem getD_set_self (l : List (Option Pix)) (n : Nat) (a : Option Pix) :
    (l.set n a).getD n none = if n < l.length then a else none := by
  by_cases h : n < l.length
  · rw [if_pos h]
    simp [List.getD_eq_getElem?_getD, List.getElem?_set_eq_of_lt _ h]
  · rw [if_neg h, List.set_eq_of_length_le (by omega)]
    rw [List.getD_eq_getElem?_getD, List.getElem?_eq_none (by omega)]
    rfl

theorem getD_set_ne (l : List (Option Pix)) (n m : Nat) (a : Option Pix) (h : n ≠ m) :
    (l.set n a).getD m none = l.getD m none := by
  simp [List.getD_eq_getElem?_getD, List.getElem?_set_ne h]

theorem set_getD_self (l : List (Option Pix)) (n : Nat) (h : l.getD n none = none) :
    l.set n none = l := by
  induction l generalizing n with
  | nil => rfl
  | cons a t ih =>
    cases n with
    | zero =>
      simp [List.getD] at h
      simp [h]
    | succ m =>
      rw [List.getD_cons_succ] at h
      rw [List.set_cons_succ, ih m h]

theorem preloadGo_getD (env : Env) (ca : Option Nat) (fuel : Nat) :
    ∀ (i : Nat) (s : ImageSeq), s.useThread = false →
      ∀ j : Nat,
        (preloadGo env ca fuel i s).sequence.getD j none =
          if i ≤ j ∧ j < i + fuel then
            (if j < s.sequence.length then env.img (s.filenames.getD j "") else none)
          else s.sequence.getD j none := by
  induction fuel with
  | zero =>
    intro i s hth j
    rw [if_neg (by omega : ¬(i ≤ j ∧ j < i + 0))]
    rfl
  | succ fuel ih =>
    intro i s hth j
    simp only [preloadGo]
    rw [if_neg (by simp [hth] : ¬(s.useThread = true ∧ ca = some (i + 1)))]
    rw [if_neg (by simp [hth] : ¬(s.useThread = true ∧ s.cancelLoading = true))]
    rw [ih (i + 1) { s with sequence := s.sequence.set i (env.img (s.filenames.getD i "")) } hth j]
    simp only [List.length_set]
    by_cases hj : j = i
    · subst hj
      rw [if_neg (by omega : ¬(j + 1 ≤ j ∧ j < j + 1 + fuel))]
      rw [if_pos (by omega : j ≤ j ∧ j < j + (fuel + 1))]
      exact getD_set_self s.sequence j _
    · by_cases hr : i + 1 ≤ j ∧ j < i + 1 + fuel
      · rw [if_pos hr, if_pos (by omega : i ≤ j ∧ j < i + (fuel + 1))]
      · rw [if_neg hr, if_neg (by omega : ¬(i ≤ j ∧ j < i + (fuel + 1)))]
        exact getD_set_ne s.sequence i j _ (by omega)

theorem preloadAllFrames_getD (env : Env) (s : ImageSeq) (hth : s.useThread = false)
    (j : Nat) (hj : j < s.sequence.length) :
    (preloadAllFrames env none s).sequence.getD j none =
      env.img (s.filenames.getD j "") := by
  simp only [preloadAllFrames]
  rw [if_neg (by omega : ¬(s.sequence.length = 0))]
  rw [preloadGo_getD env none s.sequence.length 0 s hth j]
  rw [if_pos (by omega : 0 ≤ j ∧ j < 0 + s.sequence.length), if_pos hj]

/-- C7: a failed decode at slot k is isolated: after `preloadAllFrames`,
slot k is left unallocated while any other slot j holds exactly the decode
result of its own file (so slot k+1 decodes normally); and `loadFrame` on the
failing slot reports the error and leaves the whole state unchanged. -/
theorem C7_decode_failure_isolated (env : Env) (s : ImageSeq) (k j : Nat)
    (hth : s.useThread = false)
    (hk : k < s.sequence.length)
    (hfail : env.img (s.filenames.getD k "") = none)
    (hj : j < s.sequence.length) (hjk : j ≠ k)
    (hlast : s.lastFrameLoaded ≠ (k : ℤ))
    (hslot : s.sequence.getD k none = none) :
    ((preloadAllFrames env none s).sequence.getD k none = none) ∧
    ((preloadAllFrames env none s).sequence.getD j none = env.img (s.filenames.getD j "")) ∧
    loadFrame env s (k : ℤ) = s := by
  refine ⟨?_, preloadAllFrames_getD env s hth j hj, ?_⟩
  · rw [preloadAllFrames_getD env s hth k hk, hfail]
  · simp only [loadFrame]
    rw [if_neg hlast, if_neg (by omega : ¬((k : ℤ) < 0 ∨ (s.sequence.length : ℤ) ≤ (k : ℤ)))]
    simp only [Int.toNat_natCast]
    rw [hslot, hfail]
    simp only [Option.isSome_none, Bool.false_eq_true, if_false]
    rw [getD_set_self s.sequence k none, if_pos hk]
    simp only [Option.isSome_none, Bool.false_eq_true, if_false]
    rw [set_getD_self s.sequence k hslot]

theorem C7_witness :
    ((preloadAllFrames envB none sNumB).sequence.getD 0 none = none) ∧
    ((preloadAllFrames envB none sNumB).sequence.getD 1 none =
      envB.img (sNumB.filenames.getD 1 "")) ∧
    loadFrame envB sNumB ((0 : Nat) : ℤ) = sNumB :=
  C7_decode_failure_isolated envB sNumB 0 1 (by decide) (by decide) (by decide)
    (by decide) (by decide) (by decide) (by decide)

theorem getD_replicate_none (n j : Nat) :
    (List.replicate n (none : Option Pix)).getD j none = none := by
  simp only [List.getD_eq_getElem?_getD, List.getElem?_replicate]
  split_ifs <;> rfl

theorem loadFrame0_slot (env : Env) (s : ImageSeq)
    (hn : 0 < s.sequence.length) (hlast : s.lastFrameLoaded ≠ 0)
    (hslot0 : s.sequence.getD 0 none = none ∨
      s.sequence.getD 0 none = env.img (s.filenames.getD 0 "")) :
    (loadFrame env s 0).sequence.getD 0 none = env.img (s.filenames.getD 0 "") := by
  simp only [loadFrame]
  rw [if_neg hlast, if_neg (by omega : ¬((0:ℤ) < 0 ∨ (s.sequence.length : ℤ) ≤ 0))]
  simp only [Int.toNat_zero]
  rcases hslot0 with h0 | h0
  · rw [h0]
    simp only [Option.isSome_none, Bool.false_eq_true, if_false]
    rw [getD_set_self s.sequence 0 _, if_pos hn]
    split_ifs with h
    · rw [getD_set_self s.sequence 0 _, if_pos hn]
    · rw [getD_set_self s.sequence 0 _, if_pos hn]
  · split_ifs with h1 h2 <;>
      first
        | exact h0
        | rw [getD_set_self s.sequence 0 _, if_pos hn]

theorem loadTail_width (env : Env) (s : ImageSeq)
    (hn : 0 < s.sequence.length) (hlast : s.lastFrameLoaded ≠ 0)
    (hslot : s.sequence.getD 0 none = none ∨
      s.sequence.getD 0 none = env.img (s.filenames.getD 0 "")) :
    ({ loadFrame env s 0 with
        width := ((loadFrame env s 0).sequence.getD 0 none).elim 0 Pix.w,
        height := ((loadFrame env s 0).sequence.getD 0 none).elim 0 Pix.h }).width
      = (env.img (s.filenames.getD 0 "")).elim 0 Pix.w ∧
    ({ loadFrame env s 0 with
        width := ((loadFrame env s 0).sequence.getD 0 none).elim 0 Pix.w,
        height := ((loadFrame env s 0).sequence.getD 0 none).elim 0 Pix.h }).height
      = (env.img (s.filenames.getD 0 "")).elim 0 Pix.h := by
  have h := loadFrame0_slot env s hn hlast hslot
  simp only [List.getD_eq_getElem?_getD] at h
  constructor <;> simp [h]

/-- C9 counterexample: after a (threaded) folder load under `envB` where
entry 0 fails to decode and entry 1 decodes to 7x5, the loaded sequence has
`width = height = 0`: the dimensions are taken from entry 0 regardless of
decode success, not from the first successfully decoded entry (entry 1). -/
theorem C9_counterexample :
    sThreadB.loaded = true ∧ sThreadB.width = 0 ∧ sThreadB.height = 0 ∧
    sThreadB.sequence.getD 0 none = none ∧
    sThreadB.sequence.getD 1 none = some ⟨7, 5⟩ := by
  refine ⟨?_, ?_, ?_, ?_, ?_⟩ <;> decide

/-- C9 (amended): on every successful load, `width`/`height` are set exactly
once, to the dimensions of entry 0's decode result (0 x 0 when entry 0 fails
to decode — not the first successfully decoded entry), and no addressing or
decode operation (`setFrame`, `preloadAllFrames`, `loadFrame`) changes them
afterwards until the sequence is unloaded or reloaded. -/
theorem C9_dimensions :
    (∀ (env : Env) (p f : String) (a b d : ℤ) (s : ImageSeq),
      (loadSequenceNumeric env p f a b d s).2 = true →
      (loadSequenceNumeric env p f a b d s).1.width =
        (env.img ((loadSequenceNumeric env p f a b d s).1.filenames.getD 0 "")).elim 0 Pix.w ∧
      (loadSequenceNumeric env p f a b d s).1.height =
        (env.img ((loadSequenceNumeric env p f a b d s).1.filenames.getD 0 "")).elim 0 Pix.h) ∧
    (∀ (env : Env) (s : ImageSeq), 0 < s.sequence.length →
      (s.sequence.getD 0 none = none ∨
        s.sequence.getD 0 none = env.img (s.filenames.getD 0 "")) →
      (completeLoading env s).width = (env.img (s.filenames.getD 0 "")).elim 0 Pix.w ∧
      (completeLoading env s).height = (env.img (s.filenames.getD 0 "")).elim 0 Pix.h) ∧
    (∀ (env : Env) (s : ImageSeq) (i : ℤ),
      (setFrame env s i).width = s.width ∧ (setFrame env s i).height = s.height) ∧
    (∀ (env : Env) (ca : Option Nat) (s : ImageSeq),
      (preloadAllFrames env ca s).width = s.width ∧
      (preloadAllFrames env ca s).height = s.height) ∧
    (∀ (env : Env) (s : ImageSeq) (i : ℤ),
      (loadFrame env s i).width = s.width ∧ (loadFrame env s i).height = s.height) := by
  refine ⟨fun env p f a b d s hok => ?_, fun env s hn hslot => ?_,
    fun env s i => ?_, fun env ca s => ?_, fun env s i => ?_⟩
  · simp only [loadSequenceNumeric] at hok ⊢
    split_ifs at hok ⊢ with hcond
    simp only [loadFrame_filenames]
    refine loadTail_width env _ ?_ ?_ ?_
    · simp
      omega
    · simp
    · left
      simp [unloadSequence, List.getD_eq_getElem?_getD, List.getElem?_replicate]
      split_ifs <;> rfl
  · simp only [completeLoading]
    rw [if_neg (by omega : ¬(s.sequence.length = 0))]
    simp only [loadFrame_filenames]
    exact loadTail_width env _ hn (by simp) hslot
  · simp only [setFrame]
    split_ifs <;> simp [loadFrame_width, loadFrame_height]
  · exact ⟨preloadAllFrames_width env ca s, preloadAllFrames_height env ca s⟩
  · exact ⟨loadFrame_width env s i, loadFrame_height env s i⟩

theorem C9_witness :
    ((loadSequenceNumeric envA "f" "png" 1 3 3 init).1.width =
      (envA.img ((loadSequenceNumeric envA "f" "png" 1 3 3 init).1.filenames.getD 0 "")).elim 0 Pix.w) ∧
    ((setFrame envA sNum3 2).width = sNum3.width ∧ (setFrame envA sNum3 2).height = sNum3.height) :=
  ⟨(C9_dimensions.1 envA "f" "png" 1 3 3 init (by decide)).1,
    C9_dimensions.2.2.1 envA sNum3 2⟩

/-- C4 counterexample: at `p = 1` (inside `[0,1]`, so not wrapped) a 2-frame
sequence gives index 1, but `p + 1 = 2` is wrapped to 0 and gives index 0:
the percent-to-index map is not invariant under adding an integer. -/
theorem C4_counterexample :
    getFrameIndexAtPercent 2 1 ≠ getFrameIndexAtPercent 2 (1 + ((1 : ℤ) : ℚ)) := by
  have hw1 : wrapPercent 1 = 1 := by
    unfold wrapPercent
    rw [if_neg (by norm_num)]
  have hw2 : wrapPercent (1 + ((1 : ℤ) : ℚ)) = 0 := by
    unfold wrapPercent
    rw [if_pos (by norm_num)]
    norm_num
  have h1 : getFrameIndexAtPercent 2 1 = 1 := by
    unfold getFrameIndexAtPercent cTrunc
    rw [hw1, if_neg (by norm_num)]
    norm_num
  have h2 : getFrameIndexAtPercent 2 (1 + ((1 : ℤ) : ℚ)) = 0 := by
    unfold getFrameIndexAtPercent cTrunc
    rw [hw2, if_neg (by norm_num)]
    norm_num
  rw [h1, h2]
  norm_num

theorem wrapPercent_eq_fract (p : ℚ) (hp : p ≠ 1) : wrapPercent p = Int.fract p := by
  unfold wrapPercent
  split_ifs with h
  · rfl
  · push_neg at h
    exact (Int.fract_eq_self.mpr ⟨h.1, lt_of_le_of_ne h.2 hp⟩).symm

/-- C4 (amended): on a non-empty sequence the percent-to-index map is
invariant under adding any integer to its input, provided neither the input
nor the shifted input is exactly 1 — the wrap step applies only outside
`[0,1]`, so `p = 1` maps to the last frame while `p + k` wraps to frame 0. -/
theorem C4_percent_integer_shift (n : Nat) (p : ℚ) (k : ℤ)
    (hn : 1 ≤ n) (hp : p ≠ 1) (hpk : p + (k : ℚ) ≠ 1) :
    getFrameIndexAtPercent n p = getFrameIndexAtPercent n (p + (k : ℚ)) := by
  unfold getFrameIndexAtPercent
  rw [wrapPercent_eq_fract p hp, wrapPercent_eq_fract _ hpk, Int.fract_add_int]

theorem C4_witness :
    getFrameIndexAtPercent 2 (1/2) = getFrameIndexAtPercent 2 (1/2 + ((3 : ℤ) : ℚ)) :=
  C4_percent_integer_shift 2 (1/2) 3 (by norm_num) (by norm_num) (by norm_num)

/-- C3: for every non-empty sequence of `n` frames (the only loaded case) and
every index `i` in `[0, n-1]`, the round trip
`getFrameIndexAtPercent (getPercentAtFrameIndex i)` returns `i`. -/
theorem C3_percent_roundtrip (n : Nat) (i : ℤ)
    (hn : 1 ≤ n) (h0 : 0 ≤ i) (hi : i ≤ (n : ℤ) - 1) :
    getFrameIndexAtPercent n (getPercentAtFrameIndex n i) = i := by
  rcases Nat.lt_or_ge n 2 with h2 | h2
  · have hn1 : n = 1 := by omega
    have hi0 : i = 0 := by omega
    subst hn1
    subst hi0
    unfold getFrameIndexAtPercent getPercentAtFrameIndex ofMap wrapPercent cTrunc epsFLT
    norm_num
  · have hN2 : (2:ℚ) ≤ (n:ℚ) := by exact_mod_cast h2
    have hden : (0:ℚ) < (n:ℚ) - 1 := by linarith
    have hdenne : ((n:ℚ) - 1) ≠ 0 := ne_of_gt hden
    have hiQ0 : (0:ℚ) ≤ (i:ℚ) := by exact_mod_cast h0
    have hiQ : (i:ℚ) ≤ (n:ℚ) - 1 := by exact_mod_cast hi
    have hple : (i:ℚ) / ((n:ℚ) - 1) ≤ 1 := (div_le_one hden).mpr hiQ
    have hp0 : (0:ℚ) ≤ (i:ℚ) / ((n:ℚ) - 1) := div_nonneg hiQ0 (le_of_lt hden)
    have hA : ¬(|(0:ℚ) - ((n:ℚ) - 1)| < epsFLT) := by
      rw [zero_sub, abs_neg, abs_of_nonneg (le_of_lt hden)]
      unfold epsFLT
      push_neg
      nlinarith
    have hout : getPercentAtFrameIndex n i = (i:ℚ) / ((n:ℚ) - 1) := by
      unfold getPercentAtFrameIndex ofMap
      rw [if_neg hA]
      simp only [sub_zero, mul_one, add_zero]
      rw [if_pos trivial, if_neg (by norm_num : ¬((1:ℚ) < 0))]
      rw [if_neg (not_lt.mpr hple), if_neg (not_lt.mpr hp0)]
    rw [hout]
    unfold getFrameIndexAtPercent wrapPercent cTrunc
    rw [if_neg (show ¬((i:ℚ)/((n:ℚ)-1) < 0 ∨ 1 < (i:ℚ)/((n:ℚ)-1)) by push_neg; exact ⟨hp0, hple⟩)]
    have hq0 : (0:ℚ) ≤ (i:ℚ)/((n:ℚ)-1) * (n:ℚ) := by positivity
    rw [if_neg (not_lt.mpr hq0)]
    rcases eq_or_lt_of_le hi with hEq | hLt
    · subst hEq
      have hcast : ((((n:ℤ) - 1 : ℤ)):ℚ) = (n:ℚ) - 1 := by push_cast; ring
      rw [hcast, div_self hdenne, one_mul, Int.floor_natCast]
      exact min_eq_right (by omega)
    · have key : (i:ℚ)/((n:ℚ)-1) * (n:ℚ) = (i:ℚ) + (i:ℚ)/((n:ℚ)-1) := by
        field_simp
        ring
      have hlt1 : (i:ℚ)/((n:ℚ)-1) < 1 := (div_lt_one hden).mpr (by exact_mod_cast hLt)
      have hfr : ⌊(i:ℚ)/((n:ℚ)-1)⌋ = 0 := by
        rw [Int.floor_eq_zero_iff]
        exact Set.mem_Ico.mpr ⟨hp0, hlt1⟩
      rw [key, Int.floor_int_add, hfr, add_zero]
      exact min_eq_left (by omega)

theorem C3_witness :
    getFrameIndexAtPercent 3 (getPercentAtFrameIndex 3 1) = 1 :=
  C3_percent_roundtrip 3 1 (by decide) (by decide) (by decide)

theorem preloadGo_filenames (env : Env) (ca : Option Nat) (fuel i : Nat) (s : ImageSeq) :
    (preloadGo env ca fuel i s).filenames = s.filenames := by
  have h := preloadGo_core env ca fuel i s
  simp only [core, Prod.mk.injEq] at h
  exact h.2.2.2.2.2.1

theorem preloadGo_length (env : Env) (ca : Option Nat) (fuel i : Nat) (s : ImageSeq) :
    (preloadGo env ca fuel i s).sequence.length = s.sequence.length := by
  have h := preloadGo_core env ca fuel i s
  simp only [core, Prod.mk.injEq] at h
  exact h.2.2.2.2.1

theorem preloadAllFilenames_true_state (env : Env) (s : ImageSeq)
    (hex : env.fsExists s.folderToLoad = true)
    (hnz : numFilesResolved env s ≠ 0) :
    (preloadAllFilenames env s).1 =
      { s with
        filenames := s.filenames ++
          (env.listDir s.extension s.folderToLoad).take (numFilesResolved env s),
        sequence := s.sequence ++ List.replicate (numFilesResolved env s) none } := by
  simp [preloadAllFilenames, hex, hnz]


/-- Slot contents of the decode loop when the cooperative cancel flag becomes
visible before the check of iteration `k`: iterations before `k` decode their
slot, the loop stops at `k`, every other slot is untouched. -/
theorem preloadGo_cancel_getD (env : Env) (k : Nat) :
    ∀ (fuel i : Nat) (s : ImageSeq), s.useThread = true → s.cancelLoading = false →
      i + fuel = s.sequence.length → i ≤ k → k < s.sequence.length →
      ∀ j : Nat,
        (preloadGo env (some (k + 1)) fuel i s).sequence.getD j none =
          if i ≤ j ∧ j < k then env.img (s.filenames.getD j "")
          else s.sequence.getD j none := by
  intro fuel
  induction fuel with
  | zero =>
    intro i s hth hcl hlen hik hk j
    omega
  | succ fuel ih =>
    intro i s hth hcl hlen hik hk j
    simp only [preloadGo]
    by_cases hki : k = i
    · subst hki
      rw [if_pos (show s.useThread = true ∧ some (k + 1) = some (k + 1) from ⟨hth, rfl⟩)]
      rw [if_pos (show ({ s with cancelLoading := true } : ImageSeq).useThread = true ∧
        ({ s with cancelLoading := true } : ImageSeq).cancelLoading = true from ⟨hth, rfl⟩)]
      rw [if_neg (by omega : ¬(k ≤ j ∧ j < k))]
    · rw [if_neg (show ¬(s.useThread = true ∧ some (k + 1) = some (i + 1)) from by
        rintro ⟨-, h2⟩
        simp only [Option.some.injEq] at h2
        omega)]
      rw [if_neg (show ¬(s.useThread = true ∧ s.cancelLoading = true) from by
        rintro ⟨-, h2⟩
        rw [hcl] at h2
        exact Bool.false_ne_true h2)]
      rw [ih (i + 1) { s with sequence := s.sequence.set i (env.img (s.filenames.getD i "")) }
        hth hcl (by simp only [List.length_set]; omega) (by omega)
        (by simp only [List.length_set]; omega) j]
      by_cases hj : j = i
      · subst hj
        rw [if_neg (by omega : ¬(j + 1 ≤ j ∧ j < k))]
        rw [if_pos (by omega : j ≤ j ∧ j < k)]
        rw [getD_set_self s.sequence j _, if_pos (by omega)]
      · by_cases hr : i + 1 ≤ j ∧ j < k
        · rw [if_pos hr, if_pos (by omega : i ≤ j ∧ j < k)]
        · rw [if_neg hr, if_neg (by omega : ¬(i ≤ j ∧ j < k))]
          exact getD_set_ne s.sequence i j _ (by omega)

/-- Settled state of the loader thread when a cancel request becomes visible
at checkpoint `c` after a successful filename resolution on a fresh
(post-unload) state: `numFilesResolved` filenames and slots are resolved, and
exactly the slots decoded before the checkpoint (indices `< c - 1`) hold
their decode result, every other slot is still unallocated. -/
theorem threadedFunction_cancel_getD (env : Env) (c : Nat) (s : ImageSeq)
    (ht : s.useThread = true)
    (hex : env.fsExists s.folderToLoad = true)
    (hn : 0 < numFilesResolved env s)
    (hc : c ≤ numFilesResolved env s)
    (hseq : s.sequence = []) (hfn : s.filenames = []) :
    ((threadedFunction env (some c) s).sequence.length = numFilesResolved env s) ∧
    ((threadedFunction env (some c) s).filenames =
      (env.listDir s.extension s.folderToLoad).take (numFilesResolved env s)) ∧
    (∀ j : Nat,
      (threadedFunction env (some c) s).sequence.getD j none =
        if j < c - 1 then
          env.img ((threadedFunction env (some c) s).filenames.getD j "")
        else none) := by
  have hex0 : env.fsExists ({ s with loading := true, cancelLoading := false } : ImageSeq).folderToLoad = true := hex
  have hn0 : 0 < numFilesResolved env ({ s with loading := true, cancelLoading := false } : ImageSeq) := hn
  have hnz : numFilesResolved env ({ s with loading := true, cancelLoading := false } : ImageSeq) ≠ 0 := by omega
  have hs := preloadAllFilenames_success env { s with loading := true, cancelLoading := false } hex0 hn0
  have hstate := preloadAllFilenames_true_state env { s with loading := true, cancelLoading := false } hex0 hnz
  have hsame := preloadAllFilenames_same env { s with loading := true, cancelLoading := false }
  have hu : (preloadAllFilenames env { s with loading := true, cancelLoading := false }).1.useThread = true :=
    hsame.2.2.2.2.1.trans ht
  have hcanc : (preloadAllFilenames env { s with loading := true, cancelLoading := false }).1.cancelLoading = false :=
    hsame.2.2.2.2.2
  have hnf : numFilesResolved env ({ s with loading := true, cancelLoading := false } : ImageSeq) =
      numFilesResolved env s := rfl
  have hlen1 : (preloadAllFilenames env { s with loading := true, cancelLoading := false }).1.sequence.length =
      numFilesResolved env s := by
    rw [hstate]
    simp only [hnf]
    simp [hseq]
  have hfn1 : (preloadAllFilenames env { s with loading := true, cancelLoading := false }).1.filenames =
      (env.listDir s.extension s.folderToLoad).take (numFilesResolved env s) := by
    rw [hstate]
    simp only [hnf]
    simp [hfn]
  have hseq1 : (preloadAllFilenames env { s with loading := true, cancelLoading := false }).1.sequence =
      List.replicate (numFilesResolved env s) (none : Option Pix) := by
    rw [hstate]
    simp only [hnf]
    simp [hseq]
  simp only [threadedFunction]
  rw [hs, if_neg (by simp)]
  cases c with
  | zero =>
    rw [if_pos (show (preloadAllFilenames env { s with loading := true, cancelLoading := false }).1.useThread = true ∧
      (some 0 : Option Nat) = some 0 from ⟨hu, rfl⟩)]
    rw [if_pos (show ({ (preloadAllFilenames env { s with loading := true, cancelLoading := false }).1 with
      cancelLoading := true } : ImageSeq).cancelLoading = true from rfl)]
    refine ⟨hlen1, hfn1, fun j => ?_⟩
    rw [if_neg (by omega : ¬(j < 0 - 1))]
    have hval : (preloadAllFilenames env { s with loading := true, cancelLoading := false }).1.sequence.getD j none = none := by
      rw [hseq1]
      exact getD_replicate_none _ j
    exact hval
  | succ k =>
    rw [if_neg (show ¬((preloadAllFilenames env { s with loading := true, cancelLoading := false }).1.useThread = true ∧
      (some (k + 1) : Option Nat) = some 0) from by
        rintro ⟨-, h2⟩
        simp only [Option.some.injEq] at h2
        omega)]
    rw [if_neg (show ¬((preloadAllFilenames env { s with loading := true, cancelLoading := false }).1.cancelLoading = true) from by
      rw [hcanc]
      exact Bool.false_ne_true)]
    simp only [preloadAllFrames]
    rw [if_neg (show ¬((preloadAllFilenames env { s with loading := true, cancelLoading := false }).1.sequence.length = 0) from by
      rw [hlen1]
      omega)]
    have hgo := preloadGo_cancel_getD env k
      (preloadAllFilenames env { s with loading := true, cancelLoading := false }).1.sequence.length 0
      (preloadAllFilenames env { s with loading := true, cancelLoading := false }).1
      hu hcanc (Nat.zero_add _) (by omega) (by rw [hlen1]; omega)
    refine ⟨?_, ?_, fun j => ?_⟩
    · simp only [preloadGo_length]
      exact hlen1
    · simp only [preloadGo_filenames]
      exact hfn1
    · simp only [hgo j, preloadGo_filenames]
      by_cases hlt : j < k
      · rw [if_pos (show 0 ≤ j ∧ j < k from ⟨Nat.zero_le j, hlt⟩)]
        rw [if_pos (by omega : j < k + 1 - 1)]
      · rw [if_neg (by omega : ¬(0 ≤ j ∧ j < k)), if_neg (by omega : ¬(j < k + 1 - 1))]
        rw [hseq1]
        exact getD_replicate_none _ j

theorem loadFrame_getD_ne (env : Env) (s : ImageSeq) (i : ℤ) (j : Nat)
    (hj : j ≠ i.toNat) :
    (loadFrame env s i).sequence.getD j none = s.sequence.getD j none := by
  simp only [loadFrame]
  split_ifs <;>
    first
      | rfl
      | exact getD_set_ne s.sequence i.toNat j _ (by omega)

theorem completeLoading_filenames (env : Env) (s : ImageSeq) :
    (completeLoading env s).filenames = s.filenames := by
  simp only [completeLoading]
  split_ifs <;> simp [loadFrame_filenames]

/-- `completeLoading` decodes (at most) slot 0: slot 0 ends up holding the
decode result of its file, and no other slot changes. -/
theorem completeLoading_getD (env : Env) (t : ImageSeq)
    (hpos : 0 < t.sequence.length)
    (hslot0 : t.sequence.getD 0 none = none ∨
      t.sequence.getD 0 none = env.img (t.filenames.getD 0 "")) :
    ((completeLoading env t).sequence.getD 0 none = env.img (t.filenames.getD 0 "")) ∧
    (∀ j : Nat, j ≠ 0 →
      (completeLoading env t).sequence.getD j none = t.sequence.getD j none) := by
  simp only [completeLoading]
  rw [if_neg (show ¬(({ t with completions := t.completions + 1 } : ImageSeq).sequence.length = 0) from
    fun h => absurd (show t.sequence.length = 0 from h) (by omega))]
  constructor
  · exact loadFrame0_slot env _ hpos (by norm_num) hslot0
  · intro j hj
    exact loadFrame_getD_ne env _ 0 j hj

/-- C1 (amended): if a background load is started and a cancellation request
becomes visible at checkpoint `c` before the decode loop finishes, the loader
thread honors it and stops decoding at that checkpoint: slots decoded before
the cancellation (indices `< c - 1`) keep their decoded pixels and every
later slot except frame 0 stays unallocated.  But since filename resolution
already succeeded, the next update event still calls `completeLoading`
exactly once, which decodes/uploads frame 0, so the sequence ends with
`isLoading() == false` yet `isLoaded() == true` — not unloaded/empty as the
original claim states. -/
theorem C1_cancel_still_completes (env : Env) (folder : String) (s : ImageSeq) (c : Nat)
    (ht : s.useThread = true)
    (hex : env.fsExists folder = true)
    (hn : 0 < numFilesResolved env { unloadSequence s with folderToLoad := folder })
    (hc : c ≤ numFilesResolved env { unloadSequence s with folderToLoad := folder }) :
    ((loadSequenceFolder env (some c) folder s).1.loading = false) ∧
    ((loadSequenceFolder env (some c) folder s).1.loaded = true) ∧
    ((loadSequenceFolder env (some c) folder s).1.completions = s.completions + 1) ∧
    (∀ j : Nat,
      (loadSequenceFolder env (some c) folder s).1.sequence.getD j none =
        if j = 0 ∨ j < c - 1 then
          env.img ((loadSequenceFolder env (some c) folder s).1.filenames.getD j "")
        else none) := by
  have ht0 : ({ unloadSequence s with folderToLoad := folder } : ImageSeq).useThread = true := ht
  have hex0 : env.fsExists ({ unloadSequence s with folderToLoad := folder } : ImageSeq).folderToLoad = true := hex
  have hts := threadedFunction_same env (some c) { unloadSequence s with folderToLoad := folder }
  have htc := threadedFunction_cancel_getD env c { unloadSequence s with folderToLoad := folder }
    ht0 hex0 hn hc rfl rfl
  have hlenpos : 0 < (threadedFunction env (some c)
      { unloadSequence s with folderToLoad := folder }).sequence.length := by
    rw [htc.1]
    exact hn
  have hslot0dis : (threadedFunction env (some c)
        { unloadSequence s with folderToLoad := folder }).sequence.getD 0 none = none ∨
      (threadedFunction env (some c)
        { unloadSequence s with folderToLoad := folder }).sequence.getD 0 none =
        env.img ((threadedFunction env (some c)
          { unloadSequence s with folderToLoad := folder }).filenames.getD 0 "") := by
    have h0 := htc.2.2 0
    by_cases h : 0 < c - 1
    · right
      rw [h0, if_pos h]
    · left
      rw [h0, if_neg h]
  have hcg := completeLoading_getD env
    (threadedFunction env (some c) { unloadSequence s with folderToLoad := folder })
    hlenpos hslot0dis
  simp only [loadSequenceFolder]
  rw [if_pos ht0]
  simp only [updateThreadedLoad]
  rw [if_neg (by simp [hts.1]), if_pos hlenpos]
  refine ⟨?_, ?_, ?_, ?_⟩
  · rw [completeLoading_loading, hts.1]
  · exact completeLoading_loaded_of_pos env _ hlenpos
  · rw [completeLoading_completions, hts.2.2.1]
    rfl
  · intro j
    by_cases hj : j = 0
    · subst hj
      rw [hcg.1, if_pos (Or.inl rfl), completeLoading_filenames]
    · rw [hcg.2 j hj, htc.2.2 j, completeLoading_filenames]
      by_cases hlt : j < c - 1
      · rw [if_pos hlt, if_pos (Or.inr hlt)]
      · rw [if_neg hlt, if_neg (by rintro (h | h); exact hj h; exact hlt h)]

theorem C1_witness :
    ((loadSequenceFolder envB (some 1) "frames" { init with useThread := true }).1.loading = false) ∧
    ((loadSequenceFolder envB (some 1) "frames" { init with useThread := true }).1.loaded = true) ∧
    ((loadSequenceFolder envB (some 1) "frames" { init with useThread := true }).1.completions =
      ({ init with useThread := true } : ImageSeq).completions + 1) ∧
    ((loadSequenceFolder envB (some 1) "frames" { init with useThread := true }).1.sequence.getD 1 none =
      if (1 : Nat) = 0 ∨ (1 : Nat) < 1 - 1 then
        envB.img ((loadSequenceFolder envB (some 1) "frames" { init with useThread := true }).1.filenames.getD 1 "")
      else none) := by
  have h := C1_cancel_still_completes envB "frames" { init with useThread := true } 1
    (by decide) (by decide) (by decide) (by decide)
  exact ⟨h.1, h.2.1, h.2.2.1, h.2.2.2 1⟩
